import Mathlib

/-!
Verification of the EMQX MCP server broker client (`emqx_mcp_server`),
a Python client for the EMQX HTTP management API.  The definitions below
are a shallow embedding of `src/emqx_mcp_server/emqx_client.py`,
`src/emqx_mcp_server/config.py` and the subscribe tool in
`src/emqx_mcp_server/tools/emqx_message_tools.py`.

Python dictionaries and JSON values are modelled by the inductive `Json`;
byte strings (for the base64 / percent-encoding layer) are modelled as
`List Nat` with every element `< 256`; the external JSON parser
(`json.loads` / `response.json()`) is modelled as an abstract parameter
`jsonOf : String → Option Json`, `none` meaning a decode failure.
-/

/-- A JSON value, the model of the Python dicts and decoded JSON payloads
that the client functions return. -/
inductive Json where
  | null : Json
  | bool (b : Bool) : Json
  | num (n : Int) : Json
  | str (s : String) : Json
  | arr (elems : List Json) : Json
  | obj (fields : List (String × Json)) : Json
deriving Repr

/-- Whether a `Json` value is an object (a key/value mapping). -/
def Json.isObj : Json → Bool
  | .obj _ => true
  | _ => false

namespace EMQXClient

/-- The model of an `httpx.Response`: its integer status code and its body
text. -/
structure Response where
  status : Nat
  text : String

/-- Embedding of `EMQXClient._handle_response` (emqx_client.py lines 43-54):
a 2xx status returns `{}` for 204, otherwise the JSON-decoded body, or `{}`
when decoding fails; any other status returns
`{"error": "EMQX API error: <status> - <body>"}`.  `jsonOf` models
`response.json()` (which raises `ValueError`, modelled as `none`, on a
malformed body). -/
def _handle_response (jsonOf : String → Option Json) (r : Response) : Json :=
  if 200 ≤ r.status ∧ r.status < 300 then
    if r.status = 204 then Json.obj []
    else
      match jsonOf r.text with
      | some j => j
      | none => Json.obj []
  else
    Json.obj [("error", Json.str ("EMQX API error: " ++ toString r.status ++ " - " ++ r.text))]

/-- The outcome of the single `client.request(...)` call inside
`EMQXClient._request`: either a response arrives, or one of the `httpx`
exception classes that the surrounding `try/except` catches is raised
(`httpx.TimeoutException`, `httpx.ConnectError`, or any other
`httpx.HTTPError`, carrying the exception's rendered message). -/
inductive TransportOutcome where
  | response (r : Response) : TransportOutcome
  | timeoutExn : TransportOutcome
  | connectExn (details : String) : TransportOutcome
  | httpExn (details : String) : TransportOutcome

/-- Embedding of `EMQXClient._request` (emqx_client.py lines 70-106): a
response is handed to `_handle_response`; each caught exception class is
converted to its error dictionary.  Totality of this function models the
fact that every exit path of `_request` returns a dict rather than
raising. -/
def _request (jsonOf : String → Option Json) (method path : String)
    (outcome : TransportOutcome) : Json :=
  match outcome with
  | .response r => _handle_response jsonOf r
  | .timeoutExn =>
      Json.obj [("error", Json.str ("Request timed out: " ++ method ++ " " ++ path))]
  | .connectExn details =>
      Json.obj [("error", Json.str ("Connection error: " ++ details))]
  | .httpExn details =>
      Json.obj [("error", Json.str ("HTTP request failed: " ++ details))]

end EMQXClient

/-! ### Configuration (config.py) and client construction -/

/-- Embedding of the frozen dataclass `EMQXConfig` (config.py lines 16-21). -/
structure EMQXConfig where
  api_url : String
  api_key : String
  api_secret : String
deriving Repr, DecidableEq

/-- The process environment as seen by `os.getenv(name, "")`: a total map
from variable names to string values, absent variables mapping to `""`. -/
def EnvMap : Type := String → String

/-- Embedding of `load_config` (config.py lines 43-49): reads the three
`EMQX_*` environment variables, defaulting each to the empty string. -/
def load_config (env : EnvMap) : EMQXConfig :=
  { api_url := env "EMQX_API_URL"
    api_key := env "EMQX_API_KEY"
    api_secret := env "EMQX_API_SECRET" }

namespace EMQXClient

/-- Embedding of the `self._config = config or load_config()` assignment in
`EMQXClient.__init__` (emqx_client.py lines 25-28).  The `config` argument
defaults to `None` (`none` here); a passed `EMQXConfig` instance is a frozen
dataclass and hence always truthy, so `config or load_config()` evaluates to
the instance itself, while `None` makes the constructor call `load_config()`
on the current environment. -/
def initConfig (config : Option EMQXConfig) (env : EnvMap) : EMQXConfig :=
  match config with
  | some c => c
  | none => load_config env

/-! ### Connection lifecycle (`_get_client` / `close`) -/

/-- The model of an `httpx.AsyncClient` handle: an identity (so that
distinct allocations are distinguishable) and its `is_closed` flag. -/
structure Handle where
  id : Nat
  is_closed : Bool
deriving Repr, DecidableEq

/-- The mutable connection state of one `EMQXClient` instance: the
`self._client` field (`None` until first use) and an allocation counter
supplying the identity of the next `httpx.AsyncClient` that would be
constructed. -/
structure ConnState where
  _client : Option Handle
  nextAlloc : Nat
deriving Repr, DecidableEq

/-- The state of a freshly constructed `EMQXClient`
(`self._client = None`, emqx_client.py line 28). -/
def initConnState : ConnState := { _client := none, nextAlloc := 0 }

/-- Allocation counter invariant: every handle ever stored in `_client` has
an identity below the allocation counter, so a fresh allocation is distinct
from it. -/
def ConnState.WF (s : ConnState) : Prop :=
  ∀ c : Handle, s._client = some c → c.id < s.nextAlloc

/-- Embedding of `EMQXClient._get_client` (emqx_client.py lines 56-63):
if `self._client is None or self._client.is_closed`, a fresh
`httpx.AsyncClient` is constructed and stored; the stored handle is
returned together with the updated state. -/
def _get_client (s : ConnState) : Handle × ConnState :=
  match s._client with
  | some c =>
    if c.is_closed then
      let c' : Handle := { id := s.nextAlloc, is_closed := false }
      (c', { _client := some c', nextAlloc := s.nextAlloc + 1 })
    else (c, s)
  | none =>
    let c' : Handle := { id := s.nextAlloc, is_closed := false }
    (c', { _client := some c', nextAlloc := s.nextAlloc + 1 })

/-- Embedding of `EMQXClient.close` (emqx_client.py lines 65-68): if a
handle exists and it is not closed, `aclose()` marks it closed; otherwise
nothing happens.  Totality models that `close` never raises. -/
def close (s : ConnState) : ConnState :=
  match s._client with
  | some c =>
    if c.is_closed then s
    else { s with _client := some { c with is_closed := true } }
  | none => s

/-! ### Percent-encoding of path identifiers (`get_client_info` / `kick_client`) -/

/-- Whether a byte is in `urllib.parse.quote`'s always-safe set: ASCII
letters, digits, and `_.-~` (we model `quote(clientid, safe='')`, so no
other byte is exempt from escaping). -/
def isUnreserved (b : Nat) : Bool :=
  (65 ≤ b && b ≤ 90) || (97 ≤ b && b ≤ 122) || (48 ≤ b && b ≤ 57) ||
    b = 45 || b = 46 || b = 95 || b = 126

/-- The byte of the upper-case hexadecimal digit for a value below 16, as
`urllib.parse.quote` renders escape sequences (`%XX` with capital hex). -/
def hexDigit (n : Nat) : Nat :=
  if n < 10 then 48 + n else 55 + n

/-- Percent-encoding of one byte under `quote(·, safe='')`: an always-safe
byte stands for itself, every other byte becomes `%` followed by its two
hex digits. -/
def quoteByte (b : Nat) : List Nat :=
  if isUnreserved b then [b] else [37, hexDigit (b / 16), hexDigit (b % 16)]

/-- Embedding of `urllib.parse.quote(s, safe='')` over the UTF-8 bytes of
the identifier. -/
def pyQuote (bs : List Nat) : List Nat :=
  bs.flatMap quoteByte

/-- The bytes of the literal `"/clients/"` path fragment. -/
def clientsPathBytes : List Nat := [47, 99, 108, 105, 101, 110, 116, 115, 47]

/-- Embedding of the f-string `f"/clients/{quote(clientid, safe='')}"` used
by `get_client_info` (emqx_client.py line 161). -/
def get_client_info_path (clientid : List Nat) : List Nat :=
  clientsPathBytes ++ pyQuote clientid

/-- Embedding of the f-string `f"/clients/{quote(clientid, safe='')}"` used
by `kick_client` (emqx_client.py line 174). -/
def kick_client_path (clientid : List Nat) : List Nat :=
  clientsPathBytes ++ pyQuote clientid

/-! ### Basic-auth header (`_get_auth_header`)

`_get_auth_header` (emqx_client.py lines 34-41) computes
`base64.b64encode(f"{api_key}:{api_secret}".encode()).decode()` and wraps it
as `"Basic <token>"`.  We model the key and secret at the level
`str.encode()` produces: UTF-8 byte sequences (`List Nat`, elements < 256),
and implement standard base64 with `=` padding as `base64.b64encode` does. -/

/-- The 64-character standard base64 alphabet, as byte values
(`A-Z a-z 0-9 + /`). -/
def b64Alphabet : List Nat :=
  (List.range 26).map (fun i => 65 + i) ++
    (List.range 26).map (fun i => 97 + i) ++
    (List.range 10).map (fun i => 48 + i) ++ [43, 47]

/-- The alphabet byte of a 6-bit value. -/
def sextetChar (n : Nat) : Nat := b64Alphabet.getD n 0

/-- The 6-bit value of an alphabet byte (inverse of `sextetChar` on valid
input). -/
def charSextet (c : Nat) : Nat := b64Alphabet.indexOf c

/-- Base64 packing: bytes to 6-bit groups, in 3-byte / 4-sextet blocks with
the standard short-block tails. -/
def b64EncodeSextets : List Nat → List Nat
  | [] => []
  | [b1] => [b1 / 4, b1 % 4 * 16]
  | [b1, b2] => [b1 / 4, b1 % 4 * 16 + b2 / 16, b2 % 16 * 4]
  | b1 :: b2 :: b3 :: rest =>
      b1 / 4 :: (b1 % 4 * 16 + b2 / 16) :: (b2 % 16 * 4 + b3 / 64) :: b3 % 64 ::
        b64EncodeSextets rest

/-- Base64 unpacking: 6-bit groups back to bytes, in 4-sextet / 3-byte
blocks with the standard short-block tails. -/
def b64DecodeSextets : List Nat → List Nat
  | [] => []
  | [_] => []
  | [s1, s2] => [s1 * 4 + s2 / 16]
  | [s1, s2, s3] => [s1 * 4 + s2 / 16, s2 % 16 * 16 + s3 / 4]
  | s1 :: s2 :: s3 :: s4 :: rest =>
      (s1 * 4 + s2 / 16) :: (s2 % 16 * 16 + s3 / 4) :: (s3 % 4 * 64 + s4) ::
        b64DecodeSextets rest

/-- The `=` padding bytes `base64.b64encode` appends for an input of the
given length. -/
def b64Padding (len : Nat) : List Nat :=
  if len % 3 = 1 then [61, 61] else if len % 3 = 2 then [61] else []

/-- Embedding of `base64.b64encode` on a byte sequence. -/
def b64encode (bs : List Nat) : List Nat :=
  (b64EncodeSextets bs).map sextetChar ++ b64Padding bs.length

/-- Embedding of `base64.b64decode` on a well-formed base64 byte sequence:
padding is dropped and the sextets are repacked into bytes. -/
def b64decode (cs : List Nat) : List Nat :=
  b64DecodeSextets ((cs.filter (fun c => c ≠ 61)).map charSextet)

/-- The colon byte, `":".encode()[0]`. -/
def colonByte : Nat := 58

/-- Embedding of `f"{api_key}:{api_secret}".encode()`: the key bytes, a
colon, the secret bytes. -/
def authString (key secret : List Nat) : List Nat :=
  key ++ colonByte :: secret

/-- The two headers `_get_auth_header` returns (emqx_client.py lines
38-41), with the `Authorization` value as bytes. -/
structure AuthHeaders where
  authorization : List Nat
  contentType : String
deriving Repr, DecidableEq

/-- The bytes of the literal `"Basic "`. -/
def basicBytes : List Nat := [66, 97, 115, 105, 99, 32]

/-- Embedding of `EMQXClient._get_auth_header` (emqx_client.py lines
34-41). -/
def _get_auth_header (key secret : List Nat) : AuthHeaders :=
  { authorization := basicBytes ++ b64encode (authString key secret)
    contentType := "application/json" }

/-- The base64 token of the Basic authorization header: the part after
`"Basic "`. -/
def authToken (key secret : List Nat) : List Nat :=
  (_get_auth_header key secret).authorization.drop 6

/-! ### Subscribe (SSE collection loop)

The repository's tools module calls `EMQXClient.subscribe_topic`
(emqx_message_tools.py lines 100-102) and the test suite exercises it, but
the `subscribe_topic` method itself is absent from the copy of
`emqx_client.py` under `src/` (the file ends after `kick_client`).  The
definitions below are therefore modelled from the spec (§4.2 "Subscribe
(streaming) — state machine"), using the spec's wording for the line
parser, the two caps, and the completion/failure payloads.  The wall-clock
`duration` cap is a real-time bound and is not modelled; the stream is
modelled as the list of lines `aiter_lines()` yields before the model stops
reading. -/

/-- The ASCII whitespace characters Python's `str.strip()` removes (space,
tab, newline, carriage return, vertical tab, form feed; the model restricts
itself to ASCII). -/
def isPyWhitespace (c : Char) : Bool :=
  c = ' ' || c = '\t' || c = '\n' || c = '\r' ||
    c = Char.ofNat 11 || c = Char.ofNat 12

/-- Embedding of Python `s.strip()` over the character list of a string:
leading and trailing whitespace removed. -/
def pyStrip (s : String) : String :=
  String.mk (((s.data.dropWhile isPyWhitespace).reverse.dropWhile
    isPyWhitespace).reverse)

/-- Embedding of Python `s.startswith(p)` over character lists. -/
def pyStartsWith (s p : String) : Bool :=
  p.data.isPrefixOf s.data

/-- Embedding of Python `s[n:]` over character lists. -/
def pyDropChars (s : String) (n : Nat) : String :=
  String.mk (s.data.drop n)

/-- Modelled from the spec: processing of one SSE line (spec §4.2,
STREAMING→STREAMING).  `subscribe_topic` is missing from
`src/emqx_client.py`.  A line beginning with `data:` has the prefix
stripped (`line[5:]`) and the remainder trimmed (`.strip()`); an empty
payload emits nothing; a non-empty payload becomes the decoded JSON value,
or `{"raw": <trimmed text>}` when decoding fails; any other line emits
nothing.  `jsonOf` models `json.loads`. -/
def processSSELine (jsonOf : String → Option Json) (line : String) : Option Json :=
  if pyStartsWith line "data:" then
    let payload := pyStrip (pyDropChars line 5)
    if payload = "" then none
    else
      match jsonOf payload with
      | some j => some j
      | none => some (Json.obj [("raw", Json.str payload)])
  else none

/-- Modelled from the spec: the body of one iteration of the subscribe
read loop (spec §4.2).  `subscribe_topic` is missing from
`src/emqx_client.py`.  A parsed line that emitted no message leaves the
accumulator unchanged and continues reading (`k`); an emitted message is
appended, and the count is then compared with `maxMessages`: once
`message_count ≥ max_messages`, no further line is read. -/
def collectStep (maxMessages : Nat) (acc : List Json) (r : Option Json)
    (k : List Json → List Json) : List Json :=
  match r with
  | none => k acc
  | some m =>
    let acc' := acc ++ [m]
    if maxMessages ≤ acc'.length then acc'
    else k acc'

/-- Modelled from the spec: the subscribe read loop (spec §4.2), one
`collectStep` per line, recursing over the remaining lines.
`subscribe_topic` is missing from `src/emqx_client.py`. -/
def collectMessages (jsonOf : String → Option Json) (maxMessages : Nat) :
    List String → List Json → List Json
  | [], acc => acc
  | line :: rest, acc =>
    collectStep maxMessages acc (processSSELine jsonOf line)
      (collectMessages jsonOf maxMessages rest)

/-- Modelled from the spec: `EMQXClient.subscribe_topic` (spec §4.2), which
is missing from `src/emqx_client.py`.  The SSE stream is modelled by the
initial response status, the response body text (read when the status is
not 200), and the list of lines the stream yields.  A non-200 status fails
with `{"error": "SSE subscribe error: <status> - <body>"}`; otherwise the
lines are collected under the `max_messages` cap and the call completes
with `{topic, message_count, messages}`. -/
def subscribe_topic (jsonOf : String → Option Json) (topic : String)
    (maxMessages : Nat) (status : Nat) (body : String) (lines : List String) : Json :=
  if status ≠ 200 then
    Json.obj [("error",
      Json.str ("SSE subscribe error: " ++ toString status ++ " - " ++ body))]
  else
    let msgs := collectMessages jsonOf maxMessages lines []
    Json.obj [("topic", Json.str topic),
      ("message_count", Json.num msgs.length),
      ("messages", Json.arr msgs)]

end EMQXClient

/-- A tiny concrete JSON decoder used by witnesses: the body `"1"` decodes
to the number 1, everything else fails to decode. -/
def jOne : String → Option Json :=
  fun s => if s = "1" then some (Json.num 1) else none

/-- A concrete JSON decoder used by witnesses: every body decodes to the
JSON string holding the body itself. -/
def jEcho : String → Option Json :=
  fun s => some (Json.str s)

namespace EMQXClient

/-- Helper: a byte in `urllib.parse.quote`'s always-safe set is neither
`/` (47) nor `#` (35). -/
theorem unreserved_ne_slash_hash (b : Nat) (h : isUnreserved b = true) :
    b ≠ 47 ∧ b ≠ 35 := by
  simp only [isUnreserved, Bool.or_eq_true, Bool.and_eq_true,
    decide_eq_true_eq] at h
  omega

/-- Helper: a hex-digit byte is neither `/` (47) nor `#` (35). -/
theorem hexDigit_ne_slash_hash (n : Nat) : hexDigit n ≠ 47 ∧ hexDigit n ≠ 35 := by
  unfold hexDigit
  split <;> omega

/-- Helper: percent-encoding one byte never produces a `/` (47) or `#`
(35) byte. -/
theorem quoteByte_ne_slash_hash (a b : Nat) (hb : b ∈ quoteByte a) :
    b ≠ 47 ∧ b ≠ 35 := by
  unfold quoteByte at hb
  split at hb
  case isTrue h =>
    rcases List.mem_singleton.mp hb with rfl
    exact unreserved_ne_slash_hash b h
  case isFalse h =>
    simp only [List.mem_cons, List.not_mem_nil, or_false] at hb
    rcases hb with rfl | rfl | rfl
    · exact ⟨by omega, by omega⟩
    · exact hexDigit_ne_slash_hash _
    · exact hexDigit_ne_slash_hash _

end EMQXClient

/-! ## Claim theorems -/

/-- C4: For every call to `_request`, no exception escapes to the caller: a
timeout returns `{"error": "Request timed out: <METHOD> <path>"}`, a
connection failure returns `{"error": "Connection error: <details>"}`, any
other transport-level failure returns `{"error": "HTTP request failed:
<details>"}`, and a received response is handed to `_handle_response`, so
every exit path of the (total) function returns a Result mapping rather
than raising. -/
theorem C4_request_never_raises (jsonOf : String → Option Json)
    (method path details : String) (r : EMQXClient.Response) :
    EMQXClient._request jsonOf method path .timeoutExn
        = Json.obj [("error", Json.str ("Request timed out: " ++ method ++ " " ++ path))] ∧
    EMQXClient._request jsonOf method path (.connectExn details)
        = Json.obj [("error", Json.str ("Connection error: " ++ details))] ∧
    EMQXClient._request jsonOf method path (.httpExn details)
        = Json.obj [("error", Json.str ("HTTP request failed: " ++ details))] ∧
    EMQXClient._request jsonOf method path (.response r)
        = EMQXClient._handle_response jsonOf r :=
  ⟨rfl, rfl, rfl, rfl⟩

/-- C5: For every HTTP response with status outside the 2xx range,
`_handle_response` returns a mapping with exactly one key `"error"` whose
value is `"EMQX API error: <status> - <body>"`, and that string contains
both the status and the body as substrings. -/
theorem C5_non2xx_error_string (jsonOf : String → Option Json)
    (r : EMQXClient.Response) (h : ¬(200 ≤ r.status ∧ r.status < 300)) :
    EMQXClient._handle_response jsonOf r
        = Json.obj [("error",
            Json.str ("EMQX API error: " ++ toString r.status ++ " - " ++ r.text))] ∧
    (∃ p q, "EMQX API error: " ++ toString r.status ++ " - " ++ r.text
        = p ++ toString r.status ++ q) ∧
    (∃ p q, "EMQX API error: " ++ toString r.status ++ " - " ++ r.text
        = p ++ r.text ++ q) := by
  refine ⟨?_, ⟨"EMQX API error: ", " - " ++ r.text, ?_⟩,
    ⟨"EMQX API error: " ++ toString r.status ++ " - ", "", ?_⟩⟩
  · unfold EMQXClient._handle_response
    rw [if_neg h]
  · rw [String.append_assoc]
  · rw [String.append_empty]

/-- C5 witness: instantiation at a concrete 404 response. -/
theorem C5_non2xx_error_string_witness :
    EMQXClient._handle_response (fun _ => none) ⟨404, "Not Found"⟩
        = Json.obj [("error", Json.str ("EMQX API error: " ++ toString 404 ++ " - " ++ "Not Found"))] ∧
    (∃ p q, "EMQX API error: " ++ toString 404 ++ " - " ++ "Not Found"
        = p ++ toString 404 ++ q) ∧
    (∃ p q, "EMQX API error: " ++ toString 404 ++ " - " ++ "Not Found"
        = p ++ "Not Found" ++ q) :=
  C5_non2xx_error_string (fun _ => none) ⟨404, "Not Found"⟩ (by simp)

/-- C6: For every HTTP response with status 204, `_handle_response` returns
the empty mapping; for every 2xx response whose body fails to JSON-decode,
it also returns the empty mapping — in neither case is an `"error"` key
produced or a parse exception propagated. -/
theorem C6_204_and_decode_failure (jsonOf : String → Option Json)
    (r : EMQXClient.Response) (h : 200 ≤ r.status ∧ r.status < 300) :
    (r.status = 204 → EMQXClient._handle_response jsonOf r = Json.obj []) ∧
    (jsonOf r.text = none → EMQXClient._handle_response jsonOf r = Json.obj []) := by
  constructor
  · intro h204
    unfold EMQXClient._handle_response
    rw [if_pos h, if_pos h204]
  · intro hnone
    unfold EMQXClient._handle_response
    rw [if_pos h]
    split
    · rfl
    · rw [hnone]

/-- C6 witness: a 204 response and a 200 response with a malformed body. -/
theorem C6_204_and_decode_failure_witness :
    ((204 : Nat) = 204 →
      EMQXClient._handle_response (fun _ => none) ⟨204, ""⟩ = Json.obj []) ∧
    ((fun (_ : String) => (none : Option Json)) "not valid json" = none →
      EMQXClient._handle_response (fun _ => none) ⟨204, "not valid json"⟩ = Json.obj []) :=
  C6_204_and_decode_failure (fun _ => none) ⟨204, "not valid json"⟩ (by simp)

/-- C10: For every 2xx response with status other than 204 whose body
JSON-decodes successfully, `_handle_response` returns the decoded value
unchanged, whether or not it is an object mapping — so a success Result is
not guaranteed to be a mapping, and a 2xx body that itself carries an
`"error"` key comes back as-is. -/
theorem C10_decoded_value_unchanged (jsonOf : String → Option Json)
    (r : EMQXClient.Response) (j : Json) (h : 200 ≤ r.status ∧ r.status < 300)
    (h204 : r.status ≠ 204) (hj : jsonOf r.text = some j) :
    EMQXClient._handle_response jsonOf r = j := by
  unfold EMQXClient._handle_response
  rw [if_pos h, if_neg h204, hj]

/-- C10 witness: a 200 response decoding to a JSON array (not a mapping),
and a 200 response decoding to an object that contains an `"error"` key. -/
theorem C10_decoded_value_unchanged_witness :
    EMQXClient._handle_response (fun _ => some (Json.arr [Json.num 1])) ⟨200, "[1]"⟩
        = Json.arr [Json.num 1] ∧
    (Json.arr [Json.num 1]).isObj = false ∧
    EMQXClient._handle_response
        (fun _ => some (Json.obj [("error", Json.str "x")])) ⟨200, "{}"⟩
        = Json.obj [("error", Json.str "x")] :=
  ⟨C10_decoded_value_unchanged _ ⟨200, "[1]"⟩ _ (by simp) (by simp) rfl,
    rfl,
    C10_decoded_value_unchanged _ ⟨200, "{}"⟩ _ (by simp) (by simp) rfl⟩

/-- C3 counterexample: constructed with `config = None` (the declared
default, used by the tool layer), the stored configuration differs between
two runs whose environments differ, because `__init__` falls back to
`load_config()`, which reads the environment — refuting the claim that the
core's behaviour depends only on the supplied config and that it never
reads the environment itself. -/
theorem C3_counterexample :
    EMQXClient.initConfig none (fun v => if v = "EMQX_API_URL" then "http://a" else "")
      ≠ EMQXClient.initConfig none (fun _ => "") := by
  decide

/-- C3 (amended): when an actual `EMQXConfig` instance is supplied at
construction time, the stored configuration is exactly the supplied one,
identical across any two environments; but when `config` is omitted
(`None`), the core itself reads the environment via `load_config`. -/
theorem C3_config_determines_core (c : EMQXConfig) (env1 env2 : EnvMap) :
    EMQXClient.initConfig (some c) env1 = EMQXClient.initConfig (some c) env2 ∧
    EMQXClient.initConfig (some c) env1 = c ∧
    (∀ env : EnvMap, EMQXClient.initConfig none env = load_config env) :=
  ⟨rfl, rfl, fun _ => rfl⟩

/-- C9: `get_client_info` and `kick_client` build the request path as
`"/clients/"` followed by the percent-encoding of the clientid with no
characters exempt, and no byte of that encoding is `/` (47) or `#` (35), so
the identifier occupies a single unambiguous path segment. -/
theorem C9_clientid_percent_encoded (clientid : List Nat) (b : Nat)
    (hb : b ∈ EMQXClient.pyQuote clientid) :
    EMQXClient.get_client_info_path clientid
        = EMQXClient.clientsPathBytes ++ EMQXClient.pyQuote clientid ∧
    EMQXClient.kick_client_path clientid
        = EMQXClient.clientsPathBytes ++ EMQXClient.pyQuote clientid ∧
    b ≠ 47 ∧ b ≠ 35 := by
  refine ⟨rfl, rfl, ?_⟩
  rcases List.mem_flatMap.mp hb with ⟨a, _, hmem⟩
  exact EMQXClient.quoteByte_ne_slash_hash a b hmem

/-- C9 witness: a clientid consisting of `/` and `#` (bytes 47 and 35);
the byte 37 (`%`) occurs in its encoding `%2F%23`. -/
theorem C9_clientid_percent_encoded_witness :
    EMQXClient.get_client_info_path [47, 35]
        = EMQXClient.clientsPathBytes ++ EMQXClient.pyQuote [47, 35] ∧
    EMQXClient.kick_client_path [47, 35]
        = EMQXClient.clientsPathBytes ++ EMQXClient.pyQuote [47, 35] ∧
    (37 : Nat) ≠ 47 ∧ (37 : Nat) ≠ 35 :=
  C9_clientid_percent_encoded [47, 35] 37 (by decide)

/-- C7: On one client instance, `_get_client` returns the existing open
handle unchanged (connection reuse); after `close`, the old handle is
marked closed and the next `_get_client` allocates a fresh, open handle
distinct from the old one; `close` on a freshly constructed client (no
connection ever created) is a no-op, and `close` is idempotent on every
state — it never errors. -/
theorem C7_connection_lifecycle (s : EMQXClient.ConnState) (c : EMQXClient.Handle)
    (hWF : s.WF) (hc : s._client = some c) (hopen : c.is_closed = false) :
    EMQXClient._get_client s = (c, s) ∧
    (EMQXClient.close s)._client = some { c with is_closed := true } ∧
    (EMQXClient._get_client (EMQXClient.close s)).1.is_closed = false ∧
    (EMQXClient._get_client (EMQXClient.close s)).1.id ≠ c.id ∧
    EMQXClient.close EMQXClient.initConnState = EMQXClient.initConnState ∧
    (∀ t : EMQXClient.ConnState, EMQXClient.close (EMQXClient.close t) = EMQXClient.close t) := by
  have hclose : EMQXClient.close s
      = { s with _client := some { c with is_closed := true } } := by
    unfold EMQXClient.close
    rw [hc]
    simp [hopen]
  refine ⟨?_, ?_, ?_, ?_, rfl, ?_⟩
  · unfold EMQXClient._get_client
    rw [hc]
    simp [hopen]
  · rw [hclose]
  · rw [hclose]
    unfold EMQXClient._get_client
    simp
  · rw [hclose]
    unfold EMQXClient._get_client
    have := hWF c hc
    simp
    omega
  · intro t
    unfold EMQXClient.close
    rcases ht : t._client with _ | c'
    · simp [ht]
    · by_cases hcl : c'.is_closed = true
      · simp [ht, hcl]
      · simp [ht, hcl]

/-- C7 witness: a client whose current handle `0` is open, allocation
counter `1`. -/
theorem C7_connection_lifecycle_witness :
    EMQXClient._get_client ⟨some ⟨0, false⟩, 1⟩ = (⟨0, false⟩, ⟨some ⟨0, false⟩, 1⟩) ∧
    (EMQXClient.close ⟨some ⟨0, false⟩, 1⟩)._client = some ⟨0, true⟩ ∧
    (EMQXClient._get_client (EMQXClient.close ⟨some ⟨0, false⟩, 1⟩)).1.is_closed = false ∧
    (EMQXClient._get_client (EMQXClient.close ⟨some ⟨0, false⟩, 1⟩)).1.id ≠ (0 : Nat) ∧
    EMQXClient.close EMQXClient.initConnState = EMQXClient.initConnState ∧
    (∀ t : EMQXClient.ConnState, EMQXClient.close (EMQXClient.close t) = EMQXClient.close t) :=
  C7_connection_lifecycle ⟨some ⟨0, false⟩, 1⟩ ⟨0, false⟩
    (fun c h => by cases h; decide) rfl rfl

/-- Helper equation: collecting from an exhausted stream returns the
accumulator. -/
theorem collectMessages_nil (jsonOf : String → Option Json) (M : Nat) (acc : List Json) :
    EMQXClient.collectMessages jsonOf M [] acc = acc := rfl

/-- Helper equation: collecting from a non-empty stream runs one loop
iteration on the first line. -/
theorem collectMessages_cons (jsonOf : String → Option Json) (M : Nat)
    (l : String) (rest : List String) (acc : List Json) :
    EMQXClient.collectMessages jsonOf M (l :: rest) acc
      = EMQXClient.collectStep M acc (EMQXClient.processSSELine jsonOf l)
          (EMQXClient.collectMessages jsonOf M rest) := rfl

/-- Helper equation: a line that emitted no message continues reading with
the accumulator unchanged. -/
theorem collectStep_none (M : Nat) (acc : List Json) (k : List Json → List Json) :
    EMQXClient.collectStep M acc none k = k acc := rfl

/-- Helper equation: an emitted message is appended, then the cap is
checked: reaching it stops the loop, otherwise reading continues. -/
theorem collectStep_some (M : Nat) (acc : List Json) (m : Json)
    (k : List Json → List Json) :
    EMQXClient.collectStep M acc (some m) k
      = if M ≤ (acc ++ [m]).length then acc ++ [m] else k (acc ++ [m]) := rfl

/-- Helper: when the cap is not reached, the collection loop emits exactly
the messages of the lines in arrival order (a `filterMap` of the per-line
parser), appended to the accumulator. -/
theorem collectMessages_eq_filterMap (jsonOf : String → Option Json) (M : Nat) :
    ∀ (lines : List String) (acc : List Json),
      acc.length + (lines.filterMap (EMQXClient.processSSELine jsonOf)).length ≤ M →
      EMQXClient.collectMessages jsonOf M lines acc
        = acc ++ lines.filterMap (EMQXClient.processSSELine jsonOf) := by
  intro lines
  induction lines with
  | nil => intro acc _; rw [collectMessages_nil, List.filterMap_nil, List.append_nil]
  | cons l rest ih =>
    intro acc h
    rw [collectMessages_cons]
    cases hp : EMQXClient.processSSELine jsonOf l with
    | none =>
      rw [collectStep_none]
      rw [List.filterMap_cons_none hp] at h ⊢
      exact ih acc h
    | some m =>
      rw [collectStep_some]
      rw [List.filterMap_cons_some hp] at h ⊢
      rw [List.length_cons] at h
      split
      case isTrue hfull =>
        have hrest : (rest.filterMap (EMQXClient.processSSELine jsonOf)).length = 0 := by
          simp only [List.length_append, List.length_cons, List.length_nil] at hfull
          omega
        rw [List.length_eq_zero.mp hrest]
      case isFalse hmore =>
        rw [ih (acc ++ [m]) (by simp; omega)]
        simp

/-- Helper: when at least `M` messages are available past the accumulator,
the collection loop stops exactly at `M` collected messages, having taken
the first messages in arrival order. -/
theorem collectMessages_take (jsonOf : String → Option Json) (M : Nat) :
    ∀ (lines : List String) (acc : List Json),
      acc.length < M →
      M ≤ acc.length + (lines.filterMap (EMQXClient.processSSELine jsonOf)).length →
      EMQXClient.collectMessages jsonOf M lines acc
        = acc ++ (lines.filterMap (EMQXClient.processSSELine jsonOf)).take (M - acc.length) := by
  intro lines
  induction lines with
  | nil =>
    intro acc hlt hge
    simp only [List.filterMap_nil, List.length_nil, Nat.add_zero] at hge
    omega
  | cons l rest ih =>
    intro acc hlt hge
    rw [collectMessages_cons]
    cases hp : EMQXClient.processSSELine jsonOf l with
    | none =>
      rw [collectStep_none]
      rw [List.filterMap_cons_none hp] at hge ⊢
      exact ih acc hlt hge
    | some m =>
      rw [collectStep_some]
      rw [List.filterMap_cons_some hp] at hge ⊢
      rw [List.length_cons] at hge
      split
      case isTrue hfull =>
        have hM : M = acc.length + 1 := by
          simp only [List.length_append, List.length_cons, List.length_nil] at hfull
          omega
        rw [hM]
        simp
      case isFalse hmore =>
        have hlt' : (acc ++ [m]).length < M := by
          simp only [List.length_append, List.length_cons, List.length_nil] at hmore ⊢
          omega
        rw [ih (acc ++ [m]) hlt' (by simp at hmore ⊢; omega)]
        have htake : M - acc.length = (M - (acc.length + 1)) + 1 := by omega
        rw [htake, List.take_succ_cons]
        simp

/-- C1: For every subscribe call, a stream line beginning with `data:` has
the prefix stripped and surrounding whitespace trimmed; an empty payload
emits no message; a non-empty payload that decodes becomes the Collected
Message as-is, and one that fails to decode becomes `{"raw": <trimmed
text>}`; a line not beginning with `data:` emits nothing; and on completion
(status 200, cap not exceeded by the available messages) the call returns
the success Result `{topic, message_count, messages}` with the messages in
arrival order (the `filterMap` of the per-line parser over the lines). -/
theorem C1_subscribe_line_processing (jsonOf : String → Option Json)
    (topic body line : String) (maxMessages : Nat) (lines : List String)
    (hcap : (lines.filterMap (EMQXClient.processSSELine jsonOf)).length ≤ maxMessages) :
    (EMQXClient.pyStartsWith line "data:" = true →
      EMQXClient.pyStrip (EMQXClient.pyDropChars line 5) = "" →
      EMQXClient.processSSELine jsonOf line = none) ∧
    (∀ j, EMQXClient.pyStartsWith line "data:" = true →
      EMQXClient.pyStrip (EMQXClient.pyDropChars line 5) ≠ "" →
      jsonOf (EMQXClient.pyStrip (EMQXClient.pyDropChars line 5)) = some j →
      EMQXClient.processSSELine jsonOf line = some j) ∧
    (EMQXClient.pyStartsWith line "data:" = true →
      EMQXClient.pyStrip (EMQXClient.pyDropChars line 5) ≠ "" →
      jsonOf (EMQXClient.pyStrip (EMQXClient.pyDropChars line 5)) = none →
      EMQXClient.processSSELine jsonOf line
        = some (Json.obj [("raw",
            Json.str (EMQXClient.pyStrip (EMQXClient.pyDropChars line 5)))])) ∧
    (EMQXClient.pyStartsWith line "data:" = false →
      EMQXClient.processSSELine jsonOf line = none) ∧
    EMQXClient.subscribe_topic jsonOf topic maxMessages 200 body lines
      = Json.obj [("topic", Json.str topic),
          ("message_count",
            Json.num (lines.filterMap (EMQXClient.processSSELine jsonOf)).length),
          ("messages", Json.arr (lines.filterMap (EMQXClient.processSSELine jsonOf)))] := by
  refine ⟨?_, ?_, ?_, ?_, ?_⟩
  · intro hst hempty
    simp [EMQXClient.processSSELine, hst, hempty]
  · intro j hst hne hj
    simp [EMQXClient.processSSELine, hst, hne, hj]
  · intro hst hne hj
    simp [EMQXClient.processSSELine, hst, hne, hj]
  · intro hst
    simp [EMQXClient.processSSELine, hst]
  · have hc := collectMessages_eq_filterMap jsonOf maxMessages lines []
      (by simpa using hcap)
    simp only [List.nil_append] at hc
    simp [EMQXClient.subscribe_topic, hc]

/-- C1 witness: a stream with a decodable data line, a non-data line, an
undecodable data line and a blank data line, under a cap of 100. -/
theorem C1_subscribe_line_processing_witness :
    (EMQXClient.pyStartsWith "data: 1" "data:" = true →
      EMQXClient.pyStrip (EMQXClient.pyDropChars "data: 1" 5) = "" →
      EMQXClient.processSSELine jOne "data: 1" = none) ∧
    (∀ j, EMQXClient.pyStartsWith "data: 1" "data:" = true →
      EMQXClient.pyStrip (EMQXClient.pyDropChars "data: 1" 5) ≠ "" →
      jOne (EMQXClient.pyStrip (EMQXClient.pyDropChars "data: 1" 5)) = some j →
      EMQXClient.processSSELine jOne "data: 1" = some j) ∧
    (EMQXClient.pyStartsWith "data: 1" "data:" = true →
      EMQXClient.pyStrip (EMQXClient.pyDropChars "data: 1" 5) ≠ "" →
      jOne (EMQXClient.pyStrip (EMQXClient.pyDropChars "data: 1" 5)) = none →
      EMQXClient.processSSELine jOne "data: 1"
        = some (Json.obj [("raw",
            Json.str (EMQXClient.pyStrip (EMQXClient.pyDropChars "data: 1" 5)))])) ∧
    (EMQXClient.pyStartsWith "data: 1" "data:" = false →
      EMQXClient.processSSELine jOne "data: 1" = none) ∧
    EMQXClient.subscribe_topic jOne "t" 100 200 ""
        ["data: 1", "event: x", "data: oops", "data:  "]
      = Json.obj [("topic", Json.str "t"),
          ("message_count",
            Json.num (["data: 1", "event: x", "data: oops", "data:  "].filterMap
              (EMQXClient.processSSELine jOne)).length),
          ("messages", Json.arr (["data: 1", "event: x", "data: oops", "data:  "].filterMap
              (EMQXClient.processSSELine jOne)))] :=
  C1_subscribe_line_processing jOne "t" "" "data: 1" 100
    ["data: 1", "event: x", "data: oops", "data:  "] (by decide)

/-- C2: For every subscribe call with cap `max_messages`, after each
emitted message the count is checked against the cap and reading stops once
it is reached: when at least `max_messages` messages are available in the
stream, the call collects exactly the first `max_messages` messages in
arrival order and reports `message_count = max_messages`. -/
theorem C2_max_messages_cap (jsonOf : String → Option Json)
    (topic body : String) (maxMessages : Nat) (lines : List String)
    (hpos : 0 < maxMessages)
    (havail : maxMessages ≤ (lines.filterMap (EMQXClient.processSSELine jsonOf)).length) :
    EMQXClient.subscribe_topic jsonOf topic maxMessages 200 body lines
      = Json.obj [("topic", Json.str topic),
          ("message_count", Json.num maxMessages),
          ("messages",
            Json.arr ((lines.filterMap
              (EMQXClient.processSSELine jsonOf)).take maxMessages))] := by
  have hc := collectMessages_take jsonOf maxMessages lines []
    (by simpa using hpos) (by simpa using havail)
  simp only [List.nil_append, List.length_nil, Nat.sub_zero] at hc
  have hlen : ((lines.filterMap (EMQXClient.processSSELine jsonOf)).take
      maxMessages).length = maxMessages := by
    rw [List.length_take]
    omega
  simp [EMQXClient.subscribe_topic, hc, hlen]

/-- C2 witness: a stream offering 10 messages under `max_messages = 3`
yields exactly the first 3 messages of the arrival order, and the computed
concrete Result shows the last collected message is the 3rd one
(`msg2`, arrival index 2). -/
theorem C2_max_messages_cap_witness :
    EMQXClient.subscribe_topic jEcho "t" 3 200 ""
        ["data: msg0", "data: msg1", "data: msg2", "data: msg3", "data: msg4",
          "data: msg5", "data: msg6", "data: msg7", "data: msg8", "data: msg9"]
      = Json.obj [("topic", Json.str "t"),
          ("message_count", Json.num 3),
          ("messages",
            Json.arr ((["data: msg0", "data: msg1", "data: msg2", "data: msg3",
              "data: msg4", "data: msg5", "data: msg6", "data: msg7", "data: msg8",
              "data: msg9"].filterMap (EMQXClient.processSSELine jEcho)).take 3))] ∧
    (["data: msg0", "data: msg1", "data: msg2", "data: msg3",
      "data: msg4", "data: msg5", "data: msg6", "data: msg7", "data: msg8",
      "data: msg9"].filterMap (EMQXClient.processSSELine jEcho)).take 3
      = [Json.str "msg0", Json.str "msg1", Json.str "msg2"] ∧
    [Json.str "msg0", Json.str "msg1", Json.str "msg2"].getLast?
      = some (Json.str "msg2") :=
  ⟨C2_max_messages_cap jEcho "t" "" 3
      ["data: msg0", "data: msg1", "data: msg2", "data: msg3", "data: msg4",
        "data: msg5", "data: msg6", "data: msg7", "data: msg8", "data: msg9"]
      (by decide) (by decide),
    rfl, rfl⟩

/-- Helper: the base64 alphabet inverts its own indexing on 6-bit values. -/
theorem charSextet_sextetChar :
    ∀ n, n < 64 → EMQXClient.charSextet (EMQXClient.sextetChar n) = n := by
  decide

/-- Helper: no base64 alphabet byte is the padding byte `=` (61). -/
theorem sextetChar_ne_61 (n : Nat) : EMQXClient.sextetChar n ≠ 61 := by
  by_cases h : n < 64
  · have hball : ∀ m, m < 64 → EMQXClient.sextetChar m ≠ 61 := by decide
    exact hball n h
  · unfold EMQXClient.sextetChar
    have hlen : EMQXClient.b64Alphabet.length ≤ n := by
      have h64 : EMQXClient.b64Alphabet.length = 64 := by decide
      omega
    rw [List.getD_eq_default _ _ hlen]
    omega

/-- Helper: the 6-bit groups produced from bytes are below 64. -/
theorem b64EncodeSextets_lt (bs : List Nat) (h : ∀ b ∈ bs, b < 256) :
    ∀ s ∈ EMQXClient.b64EncodeSextets bs, s < 64 := by
  induction bs using EMQXClient.b64EncodeSextets.induct with
  | case1 => intro s hs; cases hs
  | case2 b1 =>
    have h1 : b1 < 256 := h b1 (by simp)
    intro s hs
    simp only [EMQXClient.b64EncodeSextets, List.mem_cons, List.not_mem_nil,
      or_false] at hs
    rcases hs with rfl | rfl <;> omega
  | case3 b1 b2 =>
    have h1 : b1 < 256 := h b1 (by simp)
    have h2 : b2 < 256 := h b2 (by simp)
    intro s hs
    simp only [EMQXClient.b64EncodeSextets, List.mem_cons, List.not_mem_nil,
      or_false] at hs
    rcases hs with rfl | rfl | rfl <;> omega
  | case4 b1 b2 b3 rest ih =>
    have h1 : b1 < 256 := h b1 (by simp)
    have h2 : b2 < 256 := h b2 (by simp)
    have h3 : b3 < 256 := h b3 (by simp)
    intro s hs
    simp only [EMQXClient.b64EncodeSextets, List.mem_cons] at hs
    rcases hs with rfl | rfl | rfl | rfl | hs
    · omega
    · omega
    · omega
    · omega
    · exact ih (fun b hb => h b (by simp [hb])) s hs

/-- Helper: unpacking the 6-bit groups of a byte sequence restores the
bytes. -/
theorem b64DecodeSextets_b64EncodeSextets (bs : List Nat)
    (h : ∀ b ∈ bs, b < 256) :
    EMQXClient.b64DecodeSextets (EMQXClient.b64EncodeSextets bs) = bs := by
  induction bs using EMQXClient.b64EncodeSextets.induct with
  | case1 => rfl
  | case2 b1 =>
    have h1 : b1 < 256 := h b1 (by simp)
    simp only [EMQXClient.b64EncodeSextets, EMQXClient.b64DecodeSextets,
      List.cons.injEq, and_true]
    omega
  | case3 b1 b2 =>
    have h1 : b1 < 256 := h b1 (by simp)
    have h2 : b2 < 256 := h b2 (by simp)
    simp only [EMQXClient.b64EncodeSextets, EMQXClient.b64DecodeSextets,
      List.cons.injEq, and_true]
    omega
  | case4 b1 b2 b3 rest ih =>
    have h1 : b1 < 256 := h b1 (by simp)
    have h2 : b2 < 256 := h b2 (by simp)
    have h3 : b3 < 256 := h b3 (by simp)
    simp only [EMQXClient.b64EncodeSextets, EMQXClient.b64DecodeSextets,
      List.cons.injEq]
    refine ⟨by omega, by omega, by omega, ih (fun b hb => h b (by simp [hb]))⟩

/-- Helper: padding bytes are all `=` and are dropped by the decoder's
filter. -/
theorem b64Padding_filter (n : Nat) :
    (EMQXClient.b64Padding n).filter (fun c => c ≠ 61) = [] := by
  unfold EMQXClient.b64Padding
  split
  · decide
  · split
    · decide
    · decide

/-- Helper: decoding inverts encoding on byte sequences. -/
theorem b64decode_b64encode (bs : List Nat) (h : ∀ b ∈ bs, b < 256) :
    EMQXClient.b64decode (EMQXClient.b64encode bs) = bs := by
  unfold EMQXClient.b64encode EMQXClient.b64decode
  rw [List.filter_append, b64Padding_filter, List.append_nil]
  have hfil : ((EMQXClient.b64EncodeSextets bs).map EMQXClient.sextetChar).filter
      (fun c => c ≠ 61) = (EMQXClient.b64EncodeSextets bs).map EMQXClient.sextetChar := by
    rw [List.filter_eq_self]
    intro a ha
    rcases List.mem_map.mp ha with ⟨s, _, rfl⟩
    simpa using sextetChar_ne_61 s
  rw [hfil, List.map_map]
  have hmap : (EMQXClient.b64EncodeSextets bs).map
      (EMQXClient.charSextet ∘ EMQXClient.sextetChar) = EMQXClient.b64EncodeSextets bs := by
    conv_rhs => rw [← List.map_id (EMQXClient.b64EncodeSextets bs)]
    apply List.map_congr_left
    intro s hs
    exact charSextet_sextetChar s (b64EncodeSextets_lt bs h s hs)
  rw [hmap]
  exact b64DecodeSextets_b64EncodeSextets bs h

/-- C8 counterexample: for the valid (non-empty) credential pair with
key `"a:b"` (bytes `[97, 58, 98]`) and secret `"c"` (bytes `[99]`),
base64-decoding the token of the generated Basic Authorization header and
splitting on `:` yields three parts, not the pair (key, secret): the claim
fails when the key itself contains a colon. -/
theorem C8_auth_roundtrip_counterexample :
    List.splitOn EMQXClient.colonByte
        (EMQXClient.b64decode (EMQXClient.authToken [97, 58, 98] [99]))
      ≠ [[97, 58, 98], [99]] ∧
    List.splitOn EMQXClient.colonByte
        (EMQXClient.b64decode (EMQXClient.authToken [97, 58, 98] [99]))
      = [[97], [98], [99]] := by
  constructor
  · decide
  · decide

/-- C8 (amended): for every credential pair of byte strings,
base64-decoding the token of the Basic Authorization header yields exactly
`key : secret`, and — provided neither the key nor the secret contains a
colon — splitting that on `:` yields back exactly the pair (key, secret). -/
theorem C8_auth_header_roundtrip (key secret : List Nat)
    (hk : ∀ b ∈ key, b < 256) (hs : ∀ b ∈ secret, b < 256) :
    EMQXClient.b64decode (EMQXClient.authToken key secret)
      = EMQXClient.authString key secret ∧
    (EMQXClient.colonByte ∉ key → EMQXClient.colonByte ∉ secret →
      List.splitOn EMQXClient.colonByte
          (EMQXClient.b64decode (EMQXClient.authToken key secret))
        = [key, secret]) := by
  have hbytes : ∀ b ∈ EMQXClient.authString key secret, b < 256 := by
    intro b hb
    unfold EMQXClient.authString at hb
    rcases List.mem_append.mp hb with hb | hb
    · exact hk b hb
    · rcases List.mem_cons.mp hb with rfl | hb
      · unfold EMQXClient.colonByte
        omega
      · exact hs b hb
  have htok : EMQXClient.authToken key secret
      = EMQXClient.b64encode (EMQXClient.authString key secret) := rfl
  have hrt : EMQXClient.b64decode (EMQXClient.authToken key secret)
      = EMQXClient.authString key secret := by
    rw [htok]
    exact b64decode_b64encode _ hbytes
  refine ⟨hrt, ?_⟩
  intro hknc hsnc
  rw [hrt]
  unfold EMQXClient.authString
  have hi : key ++ EMQXClient.colonByte :: secret
      = [EMQXClient.colonByte].intercalate [key, secret] := by
    simp [List.intercalate]
  rw [hi]
  apply List.splitOn_intercalate
  · intro l hl
    simp only [List.mem_cons, List.not_mem_nil, or_false] at hl
    rcases hl with rfl | rfl
    · exact hknc
    · exact hsnc
  · simp

/-- C8 witness: key `"key"` (bytes `[107, 101, 121]`) and secret `"sec"`
(bytes `[115, 101, 99]`), neither containing a colon. -/
theorem C8_auth_header_roundtrip_witness :
    EMQXClient.b64decode (EMQXClient.authToken [107, 101, 121] [115, 101, 99])
      = EMQXClient.authString [107, 101, 121] [115, 101, 99] ∧
    (EMQXClient.colonByte ∉ [107, 101, 121] → EMQXClient.colonByte ∉ [115, 101, 99] →
      List.splitOn EMQXClient.colonByte
          (EMQXClient.b64decode (EMQXClient.authToken [107, 101, 121] [115, 101, 99]))
        = [[107, 101, 121], [115, 101, 99]]) :=
  C8_auth_header_roundtrip [107, 101, 121] [115, 101, 99] (by decide) (by decide)
